import Mathlib

/-!
Shallow embedding of the IRIS store-analysis pipeline (`src/iris_analysis.py`).

Modelling conventions:
* Python `int` is `Int` (or `Nat` where the source value is a count of
  characters or list items and provably non-negative).
* Python `float` is `ℚ`; the source only ever combines decimal literals,
  integer quotients and `round(x, 3)`, so exact rational arithmetic agrees
  with the float computation on every value the claims touch.
* `datetime` timestamps are absolute seconds (`Nat`): the reference day is an
  abstract day ordinal `d` and a parsed time-of-day `t` gives `d * 86400 + t`.
  The `date.today()` default for a missing reference day is an environment
  input, so the reference day is an explicit parameter here.
* A Python function that can raise is `Except String _`; the error string
  stands for the exception message.
* `re` character class `\d` is modelled as the ASCII digits `0`-`9` (the
  filenames the pipeline is specified over are ASCII).
-/

/-- Python `round(x, 3)` (banker's rounding, half to even), exact on `ℚ`. -/
def roundHalfEven (q : ℚ) : ℤ :=
  if q - ⌊q⌋ < 1/2 then ⌊q⌋
  else if 1/2 < q - ⌊q⌋ then ⌊q⌋ + 1
  else if ⌊q⌋ % 2 = 0 then ⌊q⌋ else ⌊q⌋ + 1

/-- Round a rational to three decimal places, Python `round(x, 3)`. -/
def round3 (q : ℚ) : ℚ := (roundHalfEven (q * 1000) : ℚ) / 1000

/-- Numeric value of an ASCII digit character. -/
def digitVal (c : Char) : Nat := c.toNat - 48

/-- Python `int` on a non-empty string of decimal digits. -/
def natOfDigits (l : List Char) : Nat :=
  l.foldl (fun a c => 10 * a + digitVal c) 0

/-- Boolean lexicographic strict comparison of character lists by code
point, Python string `<` (and the order of Lean `List.lt`). -/
def listCharLtb : List Char → List Char → Bool
  | [], [] => false
  | [], _ :: _ => true
  | _ :: _, [] => false
  | a :: as, b :: bs =>
    if a < b then true else if b < a then false else listCharLtb as bs

/-- Python string `<` as a Boolean function. -/
def strLTb (a b : String) : Bool := listCharLtb a.data b.data

/-- Python string `<=` as a Boolean function. -/
def strLEb (a b : String) : Bool := !(strLTb b a)

/-- Python `str.lower()`, per character (the extensions compared are
ASCII). -/
def strLower (st : String) : String := String.mk (st.data.map Char.toLower)

/-- Python `str.strip()`: drop leading and trailing whitespace. -/
def strTrim (st : String) : String :=
  String.mk (((st.data.dropWhile Char.isWhitespace).reverse.dropWhile
    Char.isWhitespace).reverse)

/-- Python `str.startswith(".")`. -/
def startsWithDot (st : String) : Bool :=
  match st.data with
  | '.' :: _ => true
  | _ => false

/-- CPython `PurePath.suffix`: `name[i:]` where `i` is the last index of a dot,
provided `0 < i < len(name) - 1`, else the empty string. -/
def pathSuffix (name : String) : String :=
  let l := name.data
  let revExt := l.reverse.takeWhile (fun c => c ≠ '.')
  if revExt.length + 1 < l.length ∧ 1 ≤ revExt.length then
    String.mk ('.' :: revExt.reverse)
  else ""

/-- `IMAGE_EXTENSIONS` from the source. -/
def IMAGE_EXTENSIONS : List String := [".jpg", ".jpeg", ".png", ".bmp", ".webp"]

/-- Whether a filename counts as an image file:
`path.suffix.lower() in IMAGE_EXTENSIONS`. -/
def isImageName (name : String) : Bool :=
  IMAGE_EXTENSIONS.contains (strLower (pathSuffix name))

/-- `ParsedFilename` from the source; `timestamp` is absolute seconds. -/
structure ParsedFilename where
  timestamp : Nat
  camera_id : String
  frame_no : Nat
deriving DecidableEq, Repr

/-- `FILE_PATTERN` = `(?P<time>\d{2}-\d{2}-\d{2})_(?P<camera>D\d{2})-(?P<frame>\d+)\.jpg$`,
applied with `re.match` (anchored at the start; `$` accepts the end of the
string or a single trailing newline).  The regex is deterministic: every
quantifier is fixed-width except the final `\d+`, which is followed by a
non-digit, so greedy maximal munch is exact.  Returns
`(hh, mm, ss, camera_id, frame_no)` on a match. -/
def matchFilePattern : List Char → Option (Nat × Nat × Nat × String × Nat)
  | h1 :: h2 :: a1 :: m1 :: m2 :: a2 :: s1 :: s2 :: a3 :: a4 :: c1 :: c2 :: a5 :: rest =>
    if h1.isDigit ∧ h2.isDigit ∧ a1 = '-' ∧ m1.isDigit ∧ m2.isDigit ∧ a2 = '-' ∧
        s1.isDigit ∧ s2.isDigit ∧ a3 = '_' ∧ a4 = 'D' ∧ c1.isDigit ∧ c2.isDigit ∧ a5 = '-' then
      let fr := rest.takeWhile Char.isDigit
      let rem := rest.dropWhile Char.isDigit
      if fr ≠ [] ∧ (rem = ['.', 'j', 'p', 'g'] ∨ rem = ['.', 'j', 'p', 'g', '\n']) then
        some (10 * digitVal h1 + digitVal h2,
              10 * digitVal m1 + digitVal m2,
              10 * digitVal s1 + digitVal s2,
              String.mk ['D', c1, c2],
              natOfDigits fr)
      else none
    else none
  | _ => none

/-- `parse_filename` from the source.  `.ok none` is Python `None` (no match);
`.error` models the `ValueError` that `datetime.replace` raises when a matched
two-digit time component is out of range. -/
def parseFilename (filename : String) (reference_day : Nat) :
    Except String (Option ParsedFilename) :=
  match matchFilePattern filename.data with
  | none => .ok none
  | some (hh, mm, ss, camera, frame) =>
    if hh ≤ 23 ∧ mm ≤ 59 ∧ ss ≤ 59 then
      .ok (some { timestamp := reference_day * 86400 + hh * 3600 + mm * 60 + ss,
                  camera_id := camera, frame_no := frame })
    else .error "ValueError: time component out of range"

/-- `DetectionResult` from the source.  `person_count` is a Python `int`,
`max_person_conf` a float modelled as `ℚ`. -/
structure DetectionResult where
  person_count : Int
  max_person_conf : ℚ
  detection_error : String
deriving DecidableEq, Repr

/-- Seed of the mock detector: `sum(ord(ch) for ch in image_path.name)`. -/
def mockSeed (name : String) : Nat :=
  (name.data.map Char.toNat).sum

/-- `MockPersonDetector.detect` from the source, as a function of the
filename (the source only reads `image_path.name`). -/
def mockDetect (conf_threshold : ℚ) (name : String) : DetectionResult :=
  let seed := mockSeed name
  let person_count := seed % 4
  if person_count = 0 then
    { person_count := 0, max_person_conf := 0, detection_error := "" }
  else
    let max_conf := max conf_threshold (min ((95 : ℚ)/100) ((55 : ℚ)/100 + ((seed % 30 : Nat) : ℚ)/100))
    { person_count := (person_count : Int),
      max_person_conf := round3 max_conf,
      detection_error := "" }

/-- `UnavailableDetector.detect` from the source. -/
def unavailableDetect (reason : String) : DetectionResult :=
  { person_count := 0, max_person_conf := 0, detection_error := reason }

/-- `YoloPersonDetector.detect` from the source.  The ultralytics model is
third-party code outside this repository, so its per-image outcome is
abstracted as a function from the image path to either an exception message
or the list of person-box confidences (`boxes.conf.tolist()`; an empty
prediction list or `None` boxes both give the empty list). -/
def yoloDetect (model : String → Except String (List ℚ)) (path : String) : DetectionResult :=
  match model path with
  | .error exc => { person_count := 0, max_person_conf := 0, detection_error := exc }
  | .ok [] => { person_count := 0, max_person_conf := 0, detection_error := "" }
  | .ok (c :: cs) =>
    { person_count := ((c :: cs).length : Int),
      max_person_conf := cs.foldl max c,
      detection_error := "" }

/-- The three detector implementations behind the `PersonDetector` protocol. -/
inductive Detector where
  | mock (conf_threshold : ℚ)
  | unavailable (reason : String)
  | yolo (model : String → Except String (List ℚ)) (conf_threshold : ℚ)

/-- `detect` dispatch over the three implementations. -/
def Detector.detect : Detector → String → DetectionResult
  | .mock thr, path => mockDetect thr path
  | .unavailable reason, _ => unavailableDetect reason
  | .yolo model _, path => yoloDetect model path

/-- A single-quote character, used to spell the warning strings of the source. -/
def sQuote : String := String.singleton (Char.ofNat 39)

/-- `build_detector` from the source.  `yolo_init` abstracts the fallible
construction of `YoloPersonDetector` (model import and load): on success it
carries the loaded model's behaviour, on failure the exception message. -/
def buildDetector (detector_type : String) (conf_threshold : ℚ)
    (yolo_init : Except String (String → Except String (List ℚ))) : Detector × String :=
  if detector_type = "mock" then (.mock conf_threshold, "")
  else if detector_type ≠ "yolo" then
    (.unavailable ("Unsupported detector_type=" ++ sQuote ++ detector_type ++ sQuote),
     "Unsupported detector_type=" ++ sQuote ++ detector_type ++ sQuote ++
       ", using unavailable detector fallback.")
  else
    match yolo_init with
    | .ok model => (.yolo model conf_threshold, "")
    | .error exc =>
      let reason := "Detector unavailable: " ++ exc
      (.unavailable reason, reason)

/-- Python `Path.name`: the final path component. -/
def pathName (p : String) : String :=
  String.mk ((p.data.reverse.takeWhile (fun c => c ≠ '/')).reverse)

/-- The mock detector reads only `image_path.name`; dispatching through a
path string therefore goes through `pathName` first. -/
def Detector.detectPath (d : Detector) (path : String) : DetectionResult :=
  match d with
  | .mock thr => mockDetect thr (pathName path)
  | .unavailable reason => unavailableDetect reason
  | .yolo model _ => yoloDetect model path

/-- The three possible outcomes of `validate_image` (the PIL decode itself is
I/O outside the embedding; a store file carries its outcome as data). -/
inductive Validation where
  | zeroByte
  | unreadable
  | ok
deriving DecidableEq, Repr

/-- `validate_image`'s returned pair `(is_valid, reject_reason)`. -/
def validateResult : Validation → Bool × String
  | .zeroByte => (false, "zero_byte")
  | .unreadable => (false, "unreadable")
  | .ok => (true, "")

/-- A regular file of a store directory: its basename and what
`validate_image` would report for it. -/
structure StoreFile where
  name : String
  validation : Validation
deriving DecidableEq, Repr

/-- One row of the `image_insights` frame. -/
structure Row where
  store_id : String
  filename : String
  camera_id : String
  timestamp : Option Nat
  is_valid : Bool
  person_count : Int
  max_person_conf : ℚ
  relevant : Bool
  reject_reason : String
  detection_error : String
  path : String
deriving DecidableEq, Repr

/-- `_iter_store_images`: regular files filtered by image extension, sorted by
path (same directory, hence by name). -/
def iterStoreImages (files : List StoreFile) : List StoreFile :=
  List.insertionSort (fun a b : StoreFile => strLEb a.name b.name = true)
    (files.filter (fun f => isImageName f.name))

/-- The loop body of `analyze_store` for one image file: parse, validate,
detect, classify. -/
def analyzeFile (store_id store_path : String) (detect : String → DetectionResult)
    (reference_day : Nat) (f : StoreFile) : Except String Row :=
  let path := store_path ++ "/" ++ f.name
  match parseFilename f.name reference_day with
  | .error e => .error e
  | .ok none =>
    .ok { store_id, filename := f.name, camera_id := "", timestamp := none,
          is_valid := false, person_count := 0, max_person_conf := 0,
          relevant := false, reject_reason := "bad_filename",
          detection_error := "", path }
  | .ok (some parsed) =>
    let v := validateResult f.validation
    let detection := if v.1 then detect path
      else { person_count := 0, max_person_conf := 0, detection_error := "" }
    let relevant := v.1 && decide (detection.detection_error = "")
      && decide (1 ≤ detection.person_count)
    .ok { store_id, filename := f.name, camera_id := parsed.camera_id,
          timestamp := some parsed.timestamp, is_valid := v.1,
          person_count := detection.person_count,
          max_person_conf := detection.max_person_conf, relevant,
          reject_reason := v.2, detection_error := detection.detection_error,
          path }

/-- Final sort of the insight rows: `(timestamp, camera_id, filename)`
ascending with timestamp-less rows last (`na_position="last"`). -/
def rowLE (a b : Row) : Bool :=
  match a.timestamp, b.timestamp with
  | none, none =>
    strLTb a.camera_id b.camera_id ||
      (a.camera_id == b.camera_id && strLEb a.filename b.filename)
  | none, some _ => false
  | some _, none => true
  | some x, some y =>
    decide (x < y) || (x == y &&
      (strLTb a.camera_id b.camera_id ||
        (a.camera_id == b.camera_id && strLEb a.filename b.filename)))

/-- A Python `for` loop that appends one result per element and propagates
the first exception. -/
def mapExcept (f : α → Except String β) : List α → Except String (List β)
  | [] => .ok []
  | x :: xs =>
    match f x with
    | .error e => .error e
    | .ok y =>
      match mapExcept f xs with
      | .error e => .error e
      | .ok ys => .ok (y :: ys)

/-- `analyze_store` up to the `image_insights` frame: one row per discovered
image file, then the final sort.  An out-of-range time component in a
matching filename propagates as the `ValueError` of `parse_filename`. -/
def analyzeStore (store_id store_path : String) (detect : String → DetectionResult)
    (reference_day : Nat) (files : List StoreFile) : Except String (List Row) :=
  match mapExcept (analyzeFile store_id store_path detect reference_day)
      (iterStoreImages files) with
  | .error e => .error e
  | .ok rows => .ok (List.insertionSort (fun a b => rowLE a b = true) rows)

/-- One row of the `camera_hotspots` frame. -/
structure HotspotRow where
  store_id : String
  camera_id : String
  relevant_images : Nat
  total_people : Int
  avg_people_per_relevant_image : ℚ
  hotspot_rank : Nat
deriving DecidableEq, Repr

/-- Python `sorted(set(l))` for strings. -/
def sortedStrings (l : List String) : List String :=
  List.insertionSort (fun a b : String => strLEb a b = true) l.dedup

/-- The observed cameras of a row set: non-blank `camera_id` values
(`dropna` plus the `strip()` truthiness test). -/
def observedCameras (rows : List Row) : List String :=
  (rows.map Row.camera_id).filter (fun c => !(strTrim c = ""))

/-- Stamp `hotspot_rank := position + 1` onto a list of hotspot rows
(`grouped.index + 1`, and `enumerate(..., start=1)` in the empty branch). -/
def stampRanks (l : List HotspotRow) : List HotspotRow :=
  l.enum.map (fun p => { p.2 with hotspot_rank := p.1 + 1 })

/-- A camera row with zero relevant images (`[0, 0, 0.0]`). -/
def zeroHotspotRow (store_id c : String) : HotspotRow :=
  { store_id, camera_id := c, relevant_images := 0, total_people := 0,
    avg_people_per_relevant_image := 0, hotspot_rank := 0 }

/-- One aggregated camera row of the `groupby` result. -/
def groupedHotspotRow (store_id : String) (relevantRows : List Row)
    (c : String) : HotspotRow :=
  let grp := relevantRows.filter (fun r => r.camera_id = c)
  { store_id, camera_id := c, relevant_images := grp.length,
    total_people := (grp.map Row.person_count).sum,
    avg_people_per_relevant_image :=
      round3 (((grp.map Row.person_count).sum : ℚ) / (grp.length : ℚ)),
    hotspot_rank := 0 }

/-- The hotspot ordering key: `avg_people_per_relevant_image` descending,
then `total_people` descending, then `camera_id` ascending. -/
def hotspotLE (a b : HotspotRow) : Prop :=
  b.avg_people_per_relevant_image < a.avg_people_per_relevant_image ∨
    (a.avg_people_per_relevant_image = b.avg_people_per_relevant_image ∧
      (b.total_people < a.total_people ∨
        (a.total_people = b.total_people ∧ a.camera_id ≤ b.camera_id)))

instance : DecidableRel hotspotLE := fun a b => by
  unfold hotspotLE; infer_instance

instance : IsTotal HotspotRow hotspotLE := by
  constructor
  intro a b
  unfold hotspotLE
  rcases lt_trichotomy a.avg_people_per_relevant_image b.avg_people_per_relevant_image
    with h | h | h
  · exact Or.inr (Or.inl h)
  · rcases lt_trichotomy a.total_people b.total_people with h2 | h2 | h2
    · exact Or.inr (Or.inr ⟨h.symm, Or.inl h2⟩)
    · rcases le_total a.camera_id b.camera_id with h3 | h3
      · exact Or.inl (Or.inr ⟨h, Or.inr ⟨h2, h3⟩⟩)
      · exact Or.inr (Or.inr ⟨h.symm, Or.inr ⟨h2.symm, h3⟩⟩)
    · exact Or.inl (Or.inr ⟨h, Or.inl h2⟩)
  · exact Or.inl (Or.inl h)

instance : IsTrans HotspotRow hotspotLE := by
  constructor
  intro a b c hab hbc
  unfold hotspotLE at *
  rcases hab with h1 | ⟨e1, h1⟩
  · rcases hbc with h2 | ⟨e2, h2⟩
    · exact Or.inl (h2.trans h1)
    · exact Or.inl (e2 ▸ h1)
  · rcases hbc with h2 | ⟨e2, h2⟩
    · exact Or.inl (e1 ▸ h2)
    · refine Or.inr ⟨e1.trans e2, ?_⟩
      rcases h1 with h1 | ⟨f1, h1⟩
      · rcases h2 with h2 | ⟨f2, h2⟩
        · exact Or.inl (h2.trans h1)
        · exact Or.inl (f2 ▸ h1)
      · rcases h2 with h2 | ⟨f2, h2⟩
        · exact Or.inl (f1 ▸ h2)
        · exact Or.inr ⟨f1.trans f2, h1.trans h2⟩

/-- `build_camera_hotspots` from the source: observed cameras are the
non-blank `camera_id` values; stats are aggregated over relevant rows by
camera; cameras without relevant rows are appended with zeros; the result is
sorted by the hotspot key and ranked `1..K` in that order.  The
`relevant.empty` branch is `_empty_camera_hotspots`. -/
def buildCameraHotspots (rows : List Row) (store_id : String) : List HotspotRow :=
  if observedCameras rows = [] then []
  else
    let relevantRows := rows.filter Row.relevant
    if relevantRows = [] then
      stampRanks ((sortedStrings (observedCameras rows)).map (zeroHotspotRow store_id))
    else
      let keys := sortedStrings (relevantRows.map Row.camera_id)
      let grouped := keys.map (groupedHotspotRow store_id relevantRows)
      let extra := ((sortedStrings (observedCameras rows)).filter
        (fun c => !keys.contains c)).map (zeroHotspotRow store_id)
      stampRanks (List.insertionSort hotspotLE (grouped ++ extra))

/-- Floor an absolute-seconds timestamp to the bucket width in minutes
(`.dt.floor`, epoch-anchored). -/
def floorBucket (time_bucket_minutes : Nat) (t : Nat) : Nat :=
  t - t % (time_bucket_minutes * 60)

/-- Zero-pad a number below 100 to two digits. -/
def pad2 (n : Nat) : String :=
  if n < 10 then "0" ++ toString n else toString n

/-- `strftime("%H:%M")` on an absolute-seconds timestamp. -/
def fmtHM (t : Nat) : String :=
  pad2 (t % 86400 / 3600) ++ ":" ++ pad2 (t % 3600 / 60)

/-- The peak-bucket ordering: `total_people` descending, bucket ascending. -/
def bucketGroupLE (a b : Nat × Int) : Prop :=
  b.2 < a.2 ∨ (a.2 = b.2 ∧ a.1 ≤ b.1)

instance : DecidableRel bucketGroupLE := fun a b => by
  unfold bucketGroupLE; infer_instance

instance : IsTotal (Nat × Int) bucketGroupLE := by
  constructor
  intro a b
  unfold bucketGroupLE
  rcases lt_trichotomy a.2 b.2 with h | h | h
  · exact Or.inr (Or.inl h)
  · rcases le_total a.1 b.1 with h2 | h2
    · exact Or.inl (Or.inr ⟨h, h2⟩)
    · exact Or.inr (Or.inr ⟨h.symm, h2⟩)
  · exact Or.inl (Or.inl h)

instance : IsTrans (Nat × Int) bucketGroupLE := by
  constructor
  intro a b c hab hbc
  unfold bucketGroupLE at *
  rcases hab with h1 | ⟨e1, h1⟩
  · rcases hbc with h2 | ⟨e2, h2⟩
    · exact Or.inl (h2.trans h1)
    · exact Or.inl (e2 ▸ h1)
  · rcases hbc with h2 | ⟨e2, h2⟩
    · exact Or.inl (e1 ▸ h2)
    · exact Or.inr ⟨e1.trans e2, h1.trans h2⟩

/-- The `(bucket, person_count)` pairs of the relevant rows; `groupby` drops
timestamp-less keys, matching `filterMap`. -/
def relevantBucketPairs (rows : List Row) (time_bucket_minutes : Nat) :
    List (Nat × Int) :=
  (rows.filter Row.relevant).filterMap (fun r =>
    r.timestamp.map (fun t => (floorBucket time_bucket_minutes t, r.person_count)))

/-- The summed `person_count` of one bucket. -/
def bucketSum (rows : List Row) (time_bucket_minutes : Nat) (b : Nat) : Int :=
  (((relevantBucketPairs rows time_bucket_minutes).filter
    (fun p => p.1 = b)).map Prod.snd).sum

/-- The distinct buckets, ascending (`groupby` sorts its keys). -/
def peakBuckets (rows : List Row) (time_bucket_minutes : Nat) : List Nat :=
  List.insertionSort (fun a b : Nat => a ≤ b)
    ((relevantBucketPairs rows time_bucket_minutes).map Prod.fst).dedup

/-- The grouped frame: one `(bucket, total_people)` row per bucket. -/
def peakGroups (rows : List Row) (time_bucket_minutes : Nat) : List (Nat × Int) :=
  (peakBuckets rows time_bucket_minutes).map
    (fun b => (b, bucketSum rows time_bucket_minutes b))

/-- `_peak_time_bucket` from the source: relevant rows only, timestamps
floored to the bucket, `person_count` summed per bucket, winner by highest
sum then earliest bucket.  Relevant rows without a timestamp are dropped by
`groupby`, which can leave the group list empty, in which case `iloc[0]`
raises. -/
def peakTimeBucket (rows : List Row) (time_bucket_minutes : Nat) :
    Except String String :=
  if rows.filter Row.relevant = [] then .ok ""
  else
    match List.insertionSort bucketGroupLE (peakGroups rows time_bucket_minutes) with
    | [] => .error "IndexError: single positional indexer is out-of-bounds"
    | g :: _ => .ok (fmtHM g.1)

/-- One row of the global summary frame. -/
structure SummaryRow where
  store_id : String
  total_images : Nat
  valid_images : Nat
  relevant_images : Nat
  total_people : Int
  top_camera_hotspot : String
  peak_time_bucket : String
deriving DecidableEq, Repr

/-- `build_store_summary` from the source. -/
def buildStoreSummary (store_id : String) (rows : List Row)
    (hotspots : List HotspotRow) (time_bucket_minutes : Nat) :
    Except String SummaryRow :=
  let top_camera := match hotspots with
    | [] => ""
    | top :: _ => if 0 < top.relevant_images then top.camera_id else ""
  match peakTimeBucket rows time_bucket_minutes with
  | .error e => .error e
  | .ok peak =>
    .ok { store_id, total_images := rows.length,
          valid_images := (rows.filter Row.is_valid).length,
          relevant_images := (rows.filter Row.relevant).length,
          total_people := (rows.map Row.person_count).sum,
          top_camera_hotspot := top_camera, peak_time_bucket := peak }

/-- `StoreAnalysisResult` from the source. -/
structure StoreAnalysisResult where
  image_insights : List Row
  camera_hotspots : List HotspotRow
  summary_row : SummaryRow
deriving DecidableEq, Repr

/-- `analyze_store` in full: insights, hotspots, summary. -/
def analyzeStoreResult (store_id store_path : String)
    (detect : String → DetectionResult) (reference_day : Nat)
    (time_bucket_minutes : Nat) (files : List StoreFile) :
    Except String StoreAnalysisResult :=
  match analyzeStore store_id store_path detect reference_day files with
  | .error e => .error e
  | .ok insights =>
    let hotspots := buildCameraHotspots insights store_id
    match buildStoreSummary store_id insights hotspots time_bucket_minutes with
    | .error e => .error e
    | .ok summary => .ok ⟨insights, hotspots, summary⟩

/-- An immediate subdirectory of the root: its name, its regular files, and
whether it has subdirectories of its own. -/
structure SubDir where
  name : String
  files : List StoreFile
  hasSubdirs : Bool
deriving DecidableEq, Repr

/-- The analysis root: its name, immediate subdirectories and regular files. -/
structure RootDir where
  name : String
  subdirs : List SubDir
  rootFiles : List StoreFile
deriving DecidableEq, Repr

/-- Whether a subdirectory qualifies as a store: not hidden, and either
holding an image file or entirely empty. -/
def dirQualifies (d : SubDir) : Bool :=
  !(startsWithDot d.name) &&
    (d.files.any (fun f => isImageName f.name) || (d.files.isEmpty && !d.hasSubdirs))

/-- `_list_store_dirs` from the source: qualifying subdirectories in name
order; when none, fall back to the root itself if it directly holds an image
file. -/
def listStoreDirs (root : RootDir) : List SubDir × Bool :=
  let store_dirs := (List.insertionSort
    (fun a b : SubDir => strLEb a.name b.name = true)
    root.subdirs).filter dirQualifies
  if store_dirs ≠ [] then (store_dirs, false)
  else if root.rootFiles.any (fun f => isImageName f.name) then
    ([{ name := root.name, files := root.rootFiles,
        hasSubdirs := !root.subdirs.isEmpty }], true)
  else ([], false)

/-- `AnalysisOutput` from the source; `stores` keeps insertion order. -/
structure AnalysisOutput where
  stores : List (String × StoreAnalysisResult)
  all_stores_summary : List SummaryRow
  detector_warning : String
  used_root_fallback_store : Bool
deriving DecidableEq, Repr

/-- `analyze_root` from the source: build the detector, discover stores,
analyze each store in discovery order, and sort the concatenated summaries by
`store_id`. -/
def analyzeRoot (root : RootDir) (conf_threshold : ℚ) (detector_type : String)
    (yolo_init : Except String (String → Except String (List ℚ)))
    (time_bucket_minutes : Nat) (reference_day : Nat) :
    Except String AnalysisOutput :=
  let dw := buildDetector detector_type conf_threshold yolo_init
  let sd := listStoreDirs root
  match mapExcept (fun d =>
      (analyzeStoreResult d.name d.name (dw.1.detectPath) reference_day
        time_bucket_minutes d.files).map (fun r => (d.name, r))) sd.1 with
  | .error e => .error e
  | .ok results =>
    .ok { stores := results,
          all_stores_summary := List.insertionSort
            (fun a b : SummaryRow => strLEb a.store_id b.store_id = true)
            (results.map (fun p => p.2.summary_row)),
          detector_warning := dw.2,
          used_root_fallback_store := sd.2 }

instance {ε α : Type} [DecidableEq ε] [DecidableEq α] : DecidableEq (Except ε α) :=
  fun a b =>
    match a, b with
    | .error x, .error y =>
      if h : x = y then .isTrue (h ▸ rfl)
      else .isFalse (fun hh => h (Except.noConfusion hh id))
    | .error _, .ok _ => .isFalse (fun hh => Except.noConfusion hh)
    | .ok _, .error _ => .isFalse (fun hh => Except.noConfusion hh)
    | .ok x, .ok y =>
      if h : x = y then .isTrue (h ▸ rfl)
      else .isFalse (fun hh => h (Except.noConfusion hh id))

def c1Files : List StoreFile :=
  [⟨"09-57-27_D02-1.jpg", .ok⟩, ⟨"bad_name.jpg", .zeroByte⟩]

def c1Rows : List Row :=
  [{ store_id := "s", filename := "09-57-27_D02-1.jpg", camera_id := "D02",
     timestamp := some 35847, is_valid := true, person_count := 2,
     max_person_conf := 0, relevant := true, reject_reason := "",
     detection_error := "", path := "s/09-57-27_D02-1.jpg" },
   { store_id := "s", filename := "bad_name.jpg", camera_id := "",
     timestamp := none, is_valid := false, person_count := 0,
     max_person_conf := 0, relevant := false, reject_reason := "bad_filename",
     detection_error := "", path := "s/bad_name.jpg" }]

def c1Detect : String → DetectionResult :=
  fun _ => { person_count := 2, max_person_conf := 0, detection_error := "" }

def c5BadRow : Row :=
  { store_id := "s", filename := "bad_name.jpg", camera_id := "",
    timestamp := none, is_valid := false, person_count := 0,
    max_person_conf := 0, relevant := false, reject_reason := "bad_filename",
    detection_error := "", path := "s/bad_name.jpg" }

def c5Detect : String → DetectionResult :=
  fun _ => { person_count := 3, max_person_conf := 0, detection_error := "x" }

/-- The declarative filename shape, following the spec's wording adjusted to
the code: two-digit hour, minute and second separated by hyphens, an
underscore, the camera letter (exactly `D` in the code's pattern) plus two
digits, a hyphen, one or more frame digits, and the literal `.jpg` suffix,
optionally followed by a single newline (Python's `$`). -/
def SpecFilenameShape (s : String) (h1 h2 m1 m2 s1 s2 c1 c2 : Char)
    (fr tail : List Char) : Prop :=
  s.data = h1 :: h2 :: '-' :: m1 :: m2 :: '-' :: s1 :: s2 :: '_' :: 'D' ::
      c1 :: c2 :: '-' :: (fr ++ tail) ∧
  (h1.isDigit ∧ h2.isDigit ∧ m1.isDigit ∧ m2.isDigit ∧
    s1.isDigit ∧ s2.isDigit ∧ c1.isDigit ∧ c2.isDigit) ∧
  fr ≠ [] ∧ (∀ c ∈ fr, c.isDigit) ∧
  (tail = ['.', 'j', 'p', 'g'] ∨ tail = ['.', 'j', 'p', 'g', '\n'])

def c6Rows : List Row :=
  [{ store_id := "s", filename := "09-57-27_D02-1.jpg", camera_id := "D02",
     timestamp := some 35847, is_valid := true, person_count := 0,
     max_person_conf := 0, relevant := false, reject_reason := "",
     detection_error := "", path := "s/09-57-27_D02-1.jpg" }]

/-- The spec's store-directory condition: not hidden, and either holding at
least one image file by extension or entirely empty (no files, no
subdirectories). -/
def StoreDirCondition (d : SubDir) : Prop :=
  startsWithDot d.name = false ∧
    ((∃ f ∈ d.files, isImageName f.name = true) ∨
      (d.files = [] ∧ d.hasSubdirs = false))

def c7Empty : SubDir := { name := "store_empty", files := [], hasSubdirs := false }

def c7Tech : SubDir :=
  { name := "tests", files := [⟨"a.txt", .ok⟩], hasSubdirs := false }

def c7Root : RootDir :=
  { name := "root", subdirs := [c7Tech, c7Empty], rootFiles := [] }

def c7Summary : SummaryRow :=
  { store_id := "store_empty", total_images := 0, valid_images := 0,
    relevant_images := 0, total_people := 0, top_camera_hotspot := "",
    peak_time_bucket := "" }

def c7Out : AnalysisOutput :=
  { stores := [("store_empty",
      { image_insights := [], camera_hotspots := [], summary_row := c7Summary })],
    all_stores_summary := [c7Summary],
    detector_warning := "Unsupported detector_type=" ++ sQuote ++ "x" ++
      sQuote ++ ", using unavailable detector fallback.",
    used_root_fallback_store := false }

def c9Files : List StoreFile :=
  [⟨"09-57-27_D02-1.jpg", .ok⟩, ⟨"09-57-44_D03-1.jpg", .ok⟩]

def c9Conf : ℚ :=
  round3 (max (1/4) (min ((95 : ℚ)/100) ((55 : ℚ)/100 + ((1130 % 30 : Nat) : ℚ)/100)))

def c9Row1 : Row :=
  { store_id := "store_a", filename := "09-57-27_D02-1.jpg", camera_id := "D02",
    timestamp := some 35847, is_valid := true, person_count := 2,
    max_person_conf := c9Conf, relevant := true, reject_reason := "",
    detection_error := "", path := "store_a/09-57-27_D02-1.jpg" }

def c9Row2 : Row :=
  { store_id := "store_a", filename := "09-57-44_D03-1.jpg", camera_id := "D03",
    timestamp := some 35864, is_valid := true, person_count := 2,
    max_person_conf := c9Conf, relevant := true, reject_reason := "",
    detection_error := "", path := "store_a/09-57-44_D03-1.jpg" }

/-- The strict hotspot ordering used to state rank correctness: strictly
higher average first, then strictly higher total, then lexicographically
smaller camera id. -/
def hotspotKeyLT (a b : HotspotRow) : Prop :=
  b.avg_people_per_relevant_image < a.avg_people_per_relevant_image ∨
    (a.avg_people_per_relevant_image = b.avg_people_per_relevant_image ∧
      (b.total_people < a.total_people ∨
        (a.total_people = b.total_people ∧ a.camera_id < b.camera_id)))

/-- The relevant rows of one camera. -/
def relevantFor (rows : List Row) (c : String) : List Row :=
  (rows.filter Row.relevant).filter (fun r => r.camera_id = c)

def c2Row1 : Row :=
  { store_id := "s", filename := "10-00-00_D02-1.jpg", camera_id := "D02",
    timestamp := some 36000, is_valid := true, person_count := 2,
    max_person_conf := 0, relevant := true, reject_reason := "",
    detection_error := "", path := "s/10-00-00_D02-1.jpg" }

def c2Row2 : Row :=
  { store_id := "s", filename := "11-00-00_D03-1.jpg", camera_id := "D03",
    timestamp := some 39600, is_valid := true, person_count := 0,
    max_person_conf := 0, relevant := false, reject_reason := "no_people",
    detection_error := "", path := "s/11-00-00_D03-1.jpg" }

def c2Rows : List Row := [c2Row1, c2Row2]

theorem mapExcept_ok_mem {α β : Type} (f : α → Except String β) (l : List α)
    (ys : List β) (h : mapExcept f l = .ok ys) :
    ∀ y ∈ ys, ∃ x ∈ l, f x = .ok y := by
  induction l generalizing ys with
  | nil =>
    simp only [mapExcept, Except.ok.injEq] at h
    subst h; simp
  | cons x xs ih =>
    simp only [mapExcept] at h
    cases hx : f x with
    | error e => rw [hx] at h; exact absurd h (by simp)
    | ok y0 =>
      rw [hx] at h
      cases hxs : mapExcept f xs with
      | error e => rw [hxs] at h; exact absurd h (by simp)
      | ok ys0 =>
        rw [hxs] at h
        simp only [Except.ok.injEq] at h
        subst h
        intro y hy
        rcases List.mem_cons.mp hy with hy | hy
        · exact ⟨x, by simp, hy ▸ hx⟩
        · obtain ⟨x', hx', hfx'⟩ := ih ys0 hxs y hy
          exact ⟨x', by simp [hx'], hfx'⟩

theorem takeWhile_append_all (p : Char → Bool) (l₁ : List Char) (c : Char)
    (l₂ : List Char) (h₁ : ∀ a ∈ l₁, p a = true) (hc : p c = false) :
    (l₁ ++ c :: l₂).takeWhile p = l₁ := by
  induction l₁ with
  | nil => simp [List.takeWhile_cons, hc]
  | cons a t ih =>
    have ha : p a = true := h₁ a (by simp)
    simp only [List.cons_append, List.takeWhile_cons, ha, if_true]
    rw [ih (fun b hb => h₁ b (by simp [hb]))]

theorem dropWhile_append_all (p : Char → Bool) (l₁ : List Char) (c : Char)
    (l₂ : List Char) (h₁ : ∀ a ∈ l₁, p a = true) (hc : p c = false) :
    (l₁ ++ c :: l₂).dropWhile p = c :: l₂ := by
  induction l₁ with
  | nil => simp [List.dropWhile_cons, hc]
  | cons a t ih =>
    have ha : p a = true := h₁ a (by simp)
    simp only [List.cons_append, List.dropWhile_cons, ha, if_true]
    exact ih (fun b hb => h₁ b (by simp [hb]))

theorem roundHalfEven_nonneg {q : ℚ} (h : 0 ≤ q) : 0 ≤ roundHalfEven q := by
  unfold roundHalfEven
  have hf : (0 : ℤ) ≤ ⌊q⌋ := Int.floor_nonneg.mpr h
  split_ifs <;> omega

theorem roundHalfEven_le_of_le {q : ℚ} {n : ℤ} (h : q ≤ (n : ℚ)) :
    roundHalfEven q ≤ n := by
  have hf : ⌊q⌋ ≤ n := by
    have := Int.floor_le_floor h
    rwa [Int.floor_intCast] at this
  unfold roundHalfEven
  split_ifs with h1 h2 h3
  · exact hf
  · have hlt : (⌊q⌋ : ℚ) < q := by linarith
    have : (⌊q⌋ : ℚ) < (n : ℚ) := lt_of_lt_of_le hlt h
    have : ⌊q⌋ < n := by exact_mod_cast this
    omega
  · exact hf
  · have heq : q - ⌊q⌋ = 1/2 := le_antisymm (not_lt.mp h2) (not_lt.mp h1)
    have hlt : (⌊q⌋ : ℚ) < q := by linarith
    have : (⌊q⌋ : ℚ) < (n : ℚ) := lt_of_lt_of_le hlt h
    have : ⌊q⌋ < n := by exact_mod_cast this
    omega

theorem round3_mem_unit {q : ℚ} (h0 : 0 ≤ q) (h1 : q ≤ 1) :
    0 ≤ round3 q ∧ round3 q ≤ 1 := by
  have ha : 0 ≤ q * 1000 := by positivity
  have hb : q * 1000 ≤ ((1000 : ℤ) : ℚ) := by push_cast; linarith
  have r1 := roundHalfEven_nonneg ha
  have r2 := roundHalfEven_le_of_le hb
  unfold round3
  constructor
  · apply div_nonneg _ (by norm_num)
    exact_mod_cast r1
  · rw [div_le_one (by norm_num)]
    exact_mod_cast r2

theorem le_foldl_max (c : ℚ) (cs : List ℚ) : c ≤ cs.foldl max c := by
  induction cs generalizing c with
  | nil => simp
  | cons x xs ih => exact le_trans (le_max_left c x) (ih (max c x))

theorem foldl_max_le (c : ℚ) (cs : List ℚ) (u : ℚ) (hc : c ≤ u)
    (h : ∀ x ∈ cs, x ≤ u) : cs.foldl max c ≤ u := by
  induction cs generalizing c with
  | nil => simpa
  | cons x xs ih =>
    exact ih (max c x) (max_le hc (h x (by simp))) (fun y hy => h y (by simp [hy]))

theorem append_ne_empty_left {s : String} (t : String) (hs : s ≠ "") :
    s ++ t ≠ "" := by
  intro h
  have hd := congrArg String.data h
  rw [String.data_append] at hd
  exact hs (String.ext ((List.append_eq_nil.mp hd).1.trans rfl))

theorem append_ne_empty_right (s : String) {t : String} (ht : t ≠ "") :
    s ++ t ≠ "" := by
  intro h
  have hd := congrArg String.data h
  rw [String.data_append] at hd
  exact ht (String.ext ((List.append_eq_nil.mp hd).2.trans rfl))

theorem fmtHM_ne_empty (t : Nat) : fmtHM t ≠ "" := by
  unfold fmtHM
  exact append_ne_empty_left _ (append_ne_empty_right _ (by decide))

theorem listCharLtb_iff : ∀ (l₁ l₂ : List Char), listCharLtb l₁ l₂ = true ↔ l₁ < l₂
  | [], [] => by
    constructor
    · intro h; exact absurd h (by simp [listCharLtb])
    · intro h; cases h
  | [], b :: bs => by
    constructor
    · intro _; exact List.Lex.nil
    · intro _; rfl
  | a :: as, [] => by
    constructor
    · intro h; exact absurd h (by simp [listCharLtb])
    · intro h; cases h
  | a :: as, b :: bs => by
    simp only [listCharLtb]
    split_ifs with h1 h2
    · constructor
      · intro _; exact List.Lex.rel h1
      · intro _; rfl
    · constructor
      · intro h; exact absurd h (by simp)
      · intro h
        cases h with
        | rel hab => exact absurd hab h1
        | cons ht => exact absurd h2 (lt_irrefl a)
    · have hab : a = b := le_antisymm (not_lt.mp h2) (not_lt.mp h1)
      subst hab
      rw [listCharLtb_iff as bs]
      constructor
      · intro ht; exact List.Lex.cons ht
      · intro h
        cases h with
        | rel hab => exact absurd hab h1
        | cons ht => exact ht

theorem strLTb_iff (a b : String) : strLTb a b = true ↔ a < b := by
  rw [String.lt_iff_toList_lt]
  exact listCharLtb_iff a.data b.data

theorem strLEb_iff (a b : String) : strLEb a b = true ↔ a ≤ b := by
  unfold strLEb
  rw [Bool.not_eq_true']
  constructor
  · intro h
    rw [← not_lt]
    intro hlt
    have := (strLTb_iff b a).mpr hlt
    rw [h] at this
    exact absurd this (by simp)
  · intro h
    cases hx : strLTb b a with
    | false => rfl
    | true => exact absurd ((strLTb_iff b a).mp hx) (not_lt.mpr h)

instance : IsTotal String (fun a b => strLEb a b = true) :=
  ⟨fun a b => by
    rw [strLEb_iff, strLEb_iff]
    exact le_total a b⟩

instance : IsTrans String (fun a b => strLEb a b = true) :=
  ⟨fun a b c hab hbc => by
    rw [strLEb_iff] at *
    exact le_trans hab hbc⟩

instance : IsTotal SummaryRow (fun a b => strLEb a.store_id b.store_id = true) :=
  ⟨fun a b => by
    rw [strLEb_iff, strLEb_iff]
    exact le_total _ _⟩

instance : IsTrans SummaryRow (fun a b => strLEb a.store_id b.store_id = true) :=
  ⟨fun a b c hab hbc => by
    rw [strLEb_iff] at *
    exact le_trans hab hbc⟩

theorem mem_sortedStrings {l : List String} {a : String} :
    a ∈ sortedStrings l ↔ a ∈ l := by
  unfold sortedStrings
  rw [(List.perm_insertionSort _ l.dedup).mem_iff, List.mem_dedup]

theorem sortedStrings_nodup (l : List String) : (sortedStrings l).Nodup :=
  (List.perm_insertionSort _ l.dedup).symm.nodup (List.nodup_dedup l)

theorem sortedStrings_pairwise_lt (l : List String) :
    (sortedStrings l).Pairwise (· < ·) := by
  have hs : (sortedStrings l).Pairwise (fun a b : String => strLEb a b = true) :=
    List.sorted_insertionSort (fun a b : String => strLEb a b = true) l.dedup
  have hn : (sortedStrings l).Pairwise (· ≠ ·) := sortedStrings_nodup l
  exact (hs.and hn).imp (fun h => lt_of_le_of_ne ((strLEb_iff _ _).mp h.1) h.2)

/-- C3: the claim says `parse_filename` never raises, even for matching
filenames whose two-digit time components are out of range (hour 99).  The
code contradicts this: `FILE_PATTERN` accepts any two digits and
`datetime.replace` then raises `ValueError`.  This theorem evaluates the
embedded code at the failing input. -/
theorem parse_filename_raises_on_out_of_range_hour :
    parseFilename "99-57-27_D02-1.jpg" 0 =
      .error "ValueError: time component out of range" := by
  with_unfolding_all decide

/-- C8: detector selection.  An unsupported type name yields the unavailable
stub plus a non-empty warning; the mock type always succeeds with an empty
warning; a failed ML construction yields the unavailable stub whose permanent
`detection_error` equals the root-level warning string. -/
theorem build_detector_selection (dtype : String) (thr : ℚ)
    (yolo_init : Except String (String → Except String (List ℚ))) :
    (dtype = "mock" → buildDetector dtype thr yolo_init = (.mock thr, "")) ∧
    (dtype ≠ "mock" → dtype ≠ "yolo" →
      (buildDetector dtype thr yolo_init).1 =
        Detector.unavailable ("Unsupported detector_type=" ++ sQuote ++ dtype ++ sQuote) ∧
      (buildDetector dtype thr yolo_init).2 ≠ "") ∧
    (∀ exc, dtype = "yolo" → yolo_init = .error exc →
      (buildDetector dtype thr yolo_init).1 =
        Detector.unavailable ((buildDetector dtype thr yolo_init).2) ∧
      ∀ path, (buildDetector dtype thr yolo_init).1.detectPath path =
        { person_count := 0, max_person_conf := 0,
          detection_error := (buildDetector dtype thr yolo_init).2 }) := by
  refine ⟨fun h => ?_, fun h1 h2 => ?_, fun exc h1 h2 => ?_⟩
  · subst h; simp [buildDetector]
  · constructor
    · simp [buildDetector, h1, h2]
    · simp only [buildDetector, if_neg h1, if_pos h2]
      exact append_ne_empty_right _ (by decide)
  · subst h1; subst h2
    refine ⟨by simp [buildDetector], fun path => ?_⟩
    simp [buildDetector, Detector.detectPath, unavailableDetect]

theorem build_detector_selection_witness :
    buildDetector "mock" (1/4) (Except.error "boom") = (.mock (1/4), "") ∧
    (buildDetector "foo" (1/4) (Except.error "boom")).2 ≠ "" ∧
    (buildDetector "yolo" (1/4) (Except.error "boom")).1 =
      Detector.unavailable ((buildDetector "yolo" (1/4) (Except.error "boom")).2) :=
  ⟨(build_detector_selection "mock" (1/4) (Except.error "boom")).1 rfl,
   ((build_detector_selection "foo" (1/4) (Except.error "boom")).2.1
     (by decide) (by decide)).2,
   ((build_detector_selection "yolo" (1/4) (Except.error "boom")).2.2
     "boom" rfl rfl).1⟩

/-- C10 counterexample: the claim asserts `max_person_conf ∈ [0,1]` for every
detector produced by `build_detector` at any confidence threshold; the mock
detector built with threshold 5 reports confidence 5 on `b.jpg`. -/
theorem detection_conf_bound_counterexample :
    ((buildDetector "mock" 5 (Except.error "no weights")).1.detectPath
        "b.jpg").max_person_conf = 5 ∧
    ¬ ((buildDetector "mock" 5 (Except.error "no weights")).1.detectPath
        "b.jpg").max_person_conf ≤ 1 := by
  with_unfolding_all decide

theorem mockDetect_bounds (thr : ℚ) (name : String) (hthr : thr ≤ 1) :
    0 ≤ (mockDetect thr name).person_count ∧
      0 ≤ (mockDetect thr name).max_person_conf ∧
      (mockDetect thr name).max_person_conf ≤ 1 := by
  have hk : (0 : ℚ) ≤ ((mockSeed name % 30 : Nat) : ℚ) := by positivity
  have harg0 : (0 : ℚ) ≤
      max thr (min ((95 : ℚ)/100) ((55 : ℚ)/100 + ((mockSeed name % 30 : Nat) : ℚ)/100)) := by
    refine le_trans ?_ (le_max_right _ _)
    apply le_min (by norm_num)
    linarith
  have harg1 :
      max thr (min ((95 : ℚ)/100) ((55 : ℚ)/100 + ((mockSeed name % 30 : Nat) : ℚ)/100)) ≤ 1 :=
    max_le hthr (le_trans (min_le_left _ _) (by norm_num))
  have hr := round3_mem_unit harg0 harg1
  simp only [mockDetect]
  split_ifs with h
  · exact ⟨le_refl 0, le_refl 0, by norm_num⟩
  · exact ⟨Int.natCast_nonneg _, hr.1, hr.2⟩

theorem yoloDetect_bounds (model : String → Except String (List ℚ)) (path : String)
    (hm : ∀ p confs, model p = .ok confs → ∀ c ∈ confs, 0 ≤ c ∧ c ≤ 1) :
    0 ≤ (yoloDetect model path).person_count ∧
      0 ≤ (yoloDetect model path).max_person_conf ∧
      (yoloDetect model path).max_person_conf ≤ 1 := by
  cases hmp : model path with
  | error e => simp [yoloDetect, hmp]
  | ok confs =>
    cases confs with
    | nil => simp [yoloDetect, hmp]
    | cons c cs =>
      have hall := hm path (c :: cs) hmp
      have hc := hall c (by simp)
      refine ⟨?_, ?_, ?_⟩
      · simp only [yoloDetect, hmp]
        exact_mod_cast Nat.zero_le _
      · simp only [yoloDetect, hmp]
        exact le_trans hc.1 (le_foldl_max c cs)
      · simp only [yoloDetect, hmp]
        exact foldl_max_le c cs 1 hc.2 (fun x hx => (hall x (by simp [hx])).2)

/-- C10 amended: for every detector produced by `build_detector`, provided the
confidence threshold is at most 1 and the abstracted ML model reports
confidences in `[0,1]` (the spec's `DetectionResult` contract for the
third-party model), every detection has a non-negative `person_count` and a
`max_person_conf` in `[0,1]`. -/
theorem detection_result_bounds (dtype : String) (thr : ℚ)
    (yolo_init : Except String (String → Except String (List ℚ))) (path : String)
    (hthr : thr ≤ 1)
    (hmodel : ∀ m, yolo_init = .ok m → ∀ p confs, m p = .ok confs →
      ∀ c ∈ confs, 0 ≤ c ∧ c ≤ 1) :
    0 ≤ ((buildDetector dtype thr yolo_init).1.detectPath path).person_count ∧
      0 ≤ ((buildDetector dtype thr yolo_init).1.detectPath path).max_person_conf ∧
      ((buildDetector dtype thr yolo_init).1.detectPath path).max_person_conf ≤ 1 := by
  by_cases hm : dtype = "mock"
  · subst hm
    simp only [buildDetector, if_pos rfl, Detector.detectPath]
    exact mockDetect_bounds thr _ hthr
  by_cases hy : dtype = "yolo"
  · subst hy
    cases yolo_init with
    | ok m =>
      simp only [buildDetector, if_neg hm, ite_not, if_pos rfl, Detector.detectPath]
      exact yoloDetect_bounds m path (fun p confs h => hmodel m rfl p confs h)
    | error e =>
      simp [buildDetector, hm, Detector.detectPath, unavailableDetect]
  · simp [buildDetector, hm, hy, Detector.detectPath, unavailableDetect]

theorem detection_result_bounds_witness :
    ((1 : ℚ)/4 ≤ 1) ∧
    (0 ≤ ((buildDetector "mock" (1/4) (Except.error "e")).1.detectPath
        "b.jpg").person_count ∧
      0 ≤ ((buildDetector "mock" (1/4) (Except.error "e")).1.detectPath
        "b.jpg").max_person_conf ∧
      ((buildDetector "mock" (1/4) (Except.error "e")).1.detectPath
        "b.jpg").max_person_conf ≤ 1) :=
  ⟨by norm_num,
   detection_result_bounds "mock" (1/4) (Except.error "e") "b.jpg" (by norm_num)
     (fun m hm => Except.noConfusion hm)⟩

theorem analyzeStore_ok_mem {store_id store_path : String}
    {detect : String → DetectionResult} {reference_day : Nat}
    {files : List StoreFile} {rows : List Row}
    (h : analyzeStore store_id store_path detect reference_day files = .ok rows) :
    ∀ r ∈ rows, ∃ f ∈ iterStoreImages files,
      analyzeFile store_id store_path detect reference_day f = .ok r := by
  unfold analyzeStore at h
  cases hm : mapExcept (analyzeFile store_id store_path detect reference_day)
      (iterStoreImages files) with
  | error e => rw [hm] at h; exact absurd h (by simp)
  | ok rows0 =>
    rw [hm] at h
    simp only [Except.ok.injEq] at h
    subst h
    intro r hr
    exact mapExcept_ok_mem _ _ _ hm r
      ((List.perm_insertionSort (fun a b => rowLE a b = true) rows0).mem_iff.mp hr)

/-- C1: in every row set produced by `analyze_store`, the `relevant` flag is
true exactly when the row is valid, has an empty `detection_error`, and has
`person_count ≥ 1` — for parsed, validation-failed and bad-filename rows
alike. -/
theorem relevant_flag_iff (store_id store_path : String)
    (detect : String → DetectionResult) (reference_day : Nat)
    (files : List StoreFile) (rows : List Row)
    (h : analyzeStore store_id store_path detect reference_day files = .ok rows) :
    ∀ r ∈ rows, r.relevant = true ↔
      (r.is_valid = true ∧ r.detection_error = "" ∧ 1 ≤ r.person_count) := by
  intro r hr
  obtain ⟨f, hf, hfr⟩ := analyzeStore_ok_mem h r hr
  cases hp : parseFilename f.name reference_day with
  | error e => simp [analyzeFile, hp] at hfr
  | ok po =>
    cases po with
    | none =>
      simp only [analyzeFile, hp, Except.ok.injEq] at hfr
      subst hfr
      simp
    | some parsed =>
      simp only [analyzeFile, hp, Except.ok.injEq] at hfr
      subst hfr
      simp only [Bool.and_eq_true, decide_eq_true_eq]
      constructor
      · rintro ⟨⟨hv, he⟩, hc⟩; exact ⟨hv, he, hc⟩
      · rintro ⟨hv, he, hc⟩; exact ⟨⟨hv, he⟩, hc⟩

set_option maxRecDepth 4000 in
theorem relevant_flag_iff_witness :
    analyzeStore "s" "s" c1Detect 0 c1Files = .ok c1Rows ∧
    (∀ r ∈ c1Rows, r.relevant = true ↔
      (r.is_valid = true ∧ r.detection_error = "" ∧ 1 ≤ r.person_count)) :=
  ⟨by decide, relevant_flag_iff "s" "s" c1Detect 0 c1Files c1Rows (by decide)⟩

/-- C5: every row of an `analyze_store` result whose filename does not parse
is exactly the fixed bad-filename row — `reject_reason="bad_filename"`,
invalid, irrelevant, zero detection fields, empty camera, no timestamp — and
mentions nothing of the detector, which is therefore never invoked for it. -/
theorem bad_filename_row_spec (store_id store_path : String)
    (detect : String → DetectionResult) (reference_day : Nat)
    (files : List StoreFile) (rows : List Row)
    (h : analyzeStore store_id store_path detect reference_day files = .ok rows) :
    ∀ r ∈ rows, parseFilename r.filename reference_day = .ok none →
      r = { store_id := store_id, filename := r.filename, camera_id := "",
            timestamp := none, is_valid := false, person_count := 0,
            max_person_conf := 0, relevant := false,
            reject_reason := "bad_filename", detection_error := "",
            path := store_path ++ "/" ++ r.filename } := by
  intro r hr hbad
  obtain ⟨f, hf, hfr⟩ := analyzeStore_ok_mem h r hr
  cases hp : parseFilename f.name reference_day with
  | error e => simp [analyzeFile, hp] at hfr
  | ok po =>
    cases po with
    | none =>
      simp only [analyzeFile, hp, Except.ok.injEq] at hfr
      subst hfr
      rfl
    | some parsed =>
      simp only [analyzeFile, hp, Except.ok.injEq] at hfr
      subst hfr
      dsimp only at hbad
      rw [hp] at hbad
      exact absurd hbad (by simp)

set_option maxRecDepth 4000 in
theorem bad_filename_row_spec_witness :
    analyzeStore "s" "s" c5Detect 0 [⟨"bad_name.jpg", .ok⟩] = .ok [c5BadRow] ∧
    parseFilename c5BadRow.filename 0 = .ok none ∧
    c5BadRow =
      { store_id := "s", filename := c5BadRow.filename, camera_id := "",
        timestamp := none, is_valid := false, person_count := 0,
        max_person_conf := 0, relevant := false,
        reject_reason := "bad_filename", detection_error := "",
        path := "s" ++ "/" ++ c5BadRow.filename } :=
  ⟨by decide, by decide,
   bad_filename_row_spec "s" "s" c5Detect 0 [⟨"bad_name.jpg", .ok⟩] [c5BadRow]
     (by decide) c5BadRow (by simp) (by decide)⟩

theorem matchFilePattern_some_iff (l : List Char)
    (v : Nat × Nat × Nat × String × Nat) :
    matchFilePattern l = some v ↔
    ∃ h1 h2 m1 m2 s1 s2 c1 c2 fr tail,
      l = h1 :: h2 :: '-' :: m1 :: m2 :: '-' :: s1 :: s2 :: '_' :: 'D' ::
          c1 :: c2 :: '-' :: (fr ++ tail) ∧
      (h1.isDigit ∧ h2.isDigit ∧ m1.isDigit ∧ m2.isDigit ∧
        s1.isDigit ∧ s2.isDigit ∧ c1.isDigit ∧ c2.isDigit) ∧
      fr ≠ [] ∧ (∀ c ∈ fr, c.isDigit) ∧
      (tail = ['.', 'j', 'p', 'g'] ∨ tail = ['.', 'j', 'p', 'g', '\n']) ∧
      v = (10 * digitVal h1 + digitVal h2, 10 * digitVal m1 + digitVal m2,
           10 * digitVal s1 + digitVal s2, String.mk ['D', c1, c2],
           natOfDigits fr) := by
  constructor
  · intro h
    rcases l with _ | ⟨h1, _ | ⟨h2, _ | ⟨a1, _ | ⟨m1, _ | ⟨m2, _ | ⟨a2,
      _ | ⟨s1, _ | ⟨s2, _ | ⟨a3, _ | ⟨a4, _ | ⟨c1, _ | ⟨c2,
      _ | ⟨a5, rest⟩⟩⟩⟩⟩⟩⟩⟩⟩⟩⟩⟩⟩
    all_goals try exact Option.noConfusion h
    simp only [matchFilePattern] at h
    split_ifs at h with hg hg2
    · obtain ⟨hd1, hd2, ha1, hd3, hd4, ha2, hd5, hd6, ha3, ha4, hd7, hd8, ha5⟩ := hg
      subst ha1; subst ha2; subst ha3; subst ha4; subst ha5
      simp only [Option.some.injEq] at h
      refine ⟨h1, h2, m1, m2, s1, s2, c1, c2,
        rest.takeWhile Char.isDigit, rest.dropWhile Char.isDigit,
        ?_, ⟨hd1, hd2, hd3, hd4, hd5, hd6, hd7, hd8⟩, hg2.1,
        fun c hc => List.mem_takeWhile_imp hc, hg2.2, h.symm⟩
      rw [List.takeWhile_append_dropWhile]
  · rintro ⟨h1, h2, m1, m2, s1, s2, c1, c2, fr, tail, rfl,
      ⟨hd1, hd2, hd3, hd4, hd5, hd6, hd7, hd8⟩, hfrne, hfrd, htail, rfl⟩
    have hdot : Char.isDigit '.' = false := by decide
    rcases htail with rfl | rfl
    · have ht1 := takeWhile_append_all Char.isDigit fr '.' ['j', 'p', 'g']
        hfrd hdot
      have ht2 := dropWhile_append_all Char.isDigit fr '.' ['j', 'p', 'g']
        hfrd hdot
      simp [matchFilePattern, ht1, ht2, hd1, hd2, hd3, hd4, hd5, hd6, hd7,
        hd8, hfrne]
    · have ht1 := takeWhile_append_all Char.isDigit fr '.' ['j', 'p', 'g', '\n']
        hfrd hdot
      have ht2 := dropWhile_append_all Char.isDigit fr '.' ['j', 'p', 'g', '\n']
        hfrd hdot
      simp [matchFilePattern, ht1, ht2, hd1, hd2, hd3, hd4, hd5, hd6, hd7,
        hd8, hfrne]

/-- C4 amended: `parse_filename` returns a `ParsedFilename` exactly for
filenames of the shape `HH-MM-SS_Dnn-f.jpg` — the camera letter is exactly
`D`, not an arbitrary uppercase letter — whose time components are in range
(hour at most 23, minute and second at most 59); the parsed value combines
the reference day with the parsed time, takes the letter-plus-two-digits
camera token, and the decimal frame number.  A matching filename with an
out-of-range time component raises `ValueError` instead, and every other
string yields a normal no-parse.  (The pattern also tolerates one trailing
newline after `.jpg`, from the regex `$`.) -/
theorem parse_filename_characterization (s : String) (d : Nat) :
    (∀ p : ParsedFilename,
      parseFilename s d = .ok (some p) ↔
      ∃ h1 h2 m1 m2 s1 s2 c1 c2 fr tail,
        SpecFilenameShape s h1 h2 m1 m2 s1 s2 c1 c2 fr tail ∧
        10 * digitVal h1 + digitVal h2 ≤ 23 ∧
        10 * digitVal m1 + digitVal m2 ≤ 59 ∧
        10 * digitVal s1 + digitVal s2 ≤ 59 ∧
        p = { timestamp := d * 86400 + (10 * digitVal h1 + digitVal h2) * 3600 +
                (10 * digitVal m1 + digitVal m2) * 60 +
                (10 * digitVal s1 + digitVal s2),
              camera_id := String.mk ['D', c1, c2],
              frame_no := natOfDigits fr }) ∧
    ((∃ e, parseFilename s d = .error e) ↔
      ∃ h1 h2 m1 m2 s1 s2 c1 c2 fr tail,
        SpecFilenameShape s h1 h2 m1 m2 s1 s2 c1 c2 fr tail ∧
        ¬(10 * digitVal h1 + digitVal h2 ≤ 23 ∧
          10 * digitVal m1 + digitVal m2 ≤ 59 ∧
          10 * digitVal s1 + digitVal s2 ≤ 59)) := by
  constructor
  · intro p
    constructor
    · intro h
      cases hm : matchFilePattern s.data with
      | none => simp [parseFilename, hm] at h
      | some v =>
        simp only [parseFilename, hm] at h
        obtain ⟨h1, h2, m1, m2, s1, s2, c1, c2, fr, tail, hshape, hdig,
          hfrne, hfrd, htail, hv⟩ := (matchFilePattern_some_iff _ _).mp hm
        subst hv
        split_ifs at h with hrange
        simp only [Except.ok.injEq, Option.some.injEq] at h
        exact ⟨h1, h2, m1, m2, s1, s2, c1, c2, fr, tail,
          ⟨hshape, hdig, hfrne, hfrd, htail⟩,
          hrange.1, hrange.2.1, hrange.2.2, h.symm⟩
    · rintro ⟨h1, h2, m1, m2, s1, s2, c1, c2, fr, tail,
        ⟨hshape, hdig, hfrne, hfrd, htail⟩, hr1, hr2, hr3, rfl⟩
      have hm : matchFilePattern s.data =
          some (10 * digitVal h1 + digitVal h2, 10 * digitVal m1 + digitVal m2,
            10 * digitVal s1 + digitVal s2, String.mk ['D', c1, c2],
            natOfDigits fr) :=
        (matchFilePattern_some_iff _ _).mpr
          ⟨h1, h2, m1, m2, s1, s2, c1, c2, fr, tail, hshape, hdig,
            hfrne, hfrd, htail, rfl⟩
      simp only [parseFilename, hm]
      rw [if_pos ⟨hr1, hr2, hr3⟩]
  · constructor
    · rintro ⟨e, h⟩
      cases hm : matchFilePattern s.data with
      | none => simp [parseFilename, hm] at h
      | some v =>
        simp only [parseFilename, hm] at h
        obtain ⟨h1, h2, m1, m2, s1, s2, c1, c2, fr, tail, hshape, hdig,
          hfrne, hfrd, htail, hv⟩ := (matchFilePattern_some_iff _ _).mp hm
        subst hv
        split_ifs at h with hrange
        exact ⟨h1, h2, m1, m2, s1, s2, c1, c2, fr, tail,
          ⟨hshape, hdig, hfrne, hfrd, htail⟩, hrange⟩
    · rintro ⟨h1, h2, m1, m2, s1, s2, c1, c2, fr, tail,
        ⟨hshape, hdig, hfrne, hfrd, htail⟩, hrange⟩
      have hm : matchFilePattern s.data =
          some (10 * digitVal h1 + digitVal h2, 10 * digitVal m1 + digitVal m2,
            10 * digitVal s1 + digitVal s2, String.mk ['D', c1, c2],
            natOfDigits fr) :=
        (matchFilePattern_some_iff _ _).mpr
          ⟨h1, h2, m1, m2, s1, s2, c1, c2, fr, tail, hshape, hdig,
            hfrne, hfrd, htail, rfl⟩
      refine ⟨"ValueError: time component out of range", ?_⟩
      simp only [parseFilename, hm]
      rw [if_neg hrange]

/-- C4 counterexample: the claim admits any uppercase camera letter, but the
pattern is literally `D\d\d`; a filename with camera letter `A` does not
parse. -/
theorem parse_filename_rejects_uppercase_camera :
    parseFilename "09-57-27_A02-1.jpg" 0 = .ok none := by
  decide

/-- C6: the peak time bucket is computed over relevant rows only — each
relevant timestamp floored to the bucket width in minutes, `person_count`
summed per bucket, the bucket with the highest sum winning with ties broken
by the earliest bucket start — formatted `"HH:MM"`, and equal to the empty
string exactly when there are no relevant rows.  (Stated for positive bucket
widths; pandas raises on a zero-width frequency.) -/
theorem peak_time_bucket_spec (rows : List Row) (X : Nat) (_hX : 0 < X)
    (hts : ∀ r ∈ rows, r.relevant = true → r.timestamp ≠ none) :
    (rows.filter Row.relevant = [] → peakTimeBucket rows X = .ok "") ∧
    (rows.filter Row.relevant ≠ [] →
      ∃ b, peakTimeBucket rows X = .ok (fmtHM b) ∧
        b ∈ (relevantBucketPairs rows X).map Prod.fst ∧
        ∀ bb ∈ (relevantBucketPairs rows X).map Prod.fst,
          bucketSum rows X bb < bucketSum rows X b ∨
          (bucketSum rows X bb = bucketSum rows X b ∧ b ≤ bb)) ∧
    (∀ str, peakTimeBucket rows X = .ok str →
      (str = "" ↔ rows.filter Row.relevant = [])) := by
  by_cases hrel : rows.filter Row.relevant = []
  · refine ⟨fun _ => ?_, fun hne => absurd hrel hne, fun str hstr => ?_⟩
    · simp [peakTimeBucket, hrel]
    · simp [peakTimeBucket, hrel] at hstr
      constructor
      · intro _; exact hrel
      · intro _; simp_all
  · have hpairs_ne : relevantBucketPairs rows X ≠ [] := by
      obtain ⟨r, hr⟩ := List.exists_mem_of_ne_nil _ hrel
      have hrrel : r.relevant = true := (List.mem_filter.mp hr).2
      have hrmem : r ∈ rows := (List.mem_filter.mp hr).1
      cases hto : r.timestamp with
      | none => exact absurd hto (hts r hrmem hrrel)
      | some tt =>
        intro hnil
        have hmem : (floorBucket X tt, r.person_count) ∈
            relevantBucketPairs rows X := by
          unfold relevantBucketPairs
          exact List.mem_filterMap.mpr ⟨r, hr, by rw [hto]; rfl⟩
        rw [hnil] at hmem
        exact absurd hmem (List.not_mem_nil _)
    have hgroups_ne : peakGroups rows X ≠ [] := by
      unfold peakGroups peakBuckets
      intro h
      have h2 := List.map_eq_nil_iff.mp h
      have hperm := List.perm_insertionSort (fun a b : Nat => a ≤ b)
        ((relevantBucketPairs rows X).map Prod.fst).dedup
      rw [h2] at hperm
      have h3 := hperm.symm.eq_nil
      have h4 := (List.dedup_eq_nil _).mp h3
      exact hpairs_ne (List.map_eq_nil_iff.mp h4)
    obtain ⟨g, t, hgt⟩ : ∃ g t,
        List.insertionSort bucketGroupLE (peakGroups rows X) = g :: t := by
      cases hc : List.insertionSort bucketGroupLE (peakGroups rows X) with
      | nil =>
        have hperm := List.perm_insertionSort bucketGroupLE (peakGroups rows X)
        rw [hc] at hperm
        exact absurd hperm.symm.eq_nil hgroups_ne
      | cons g t => exact ⟨g, t, rfl⟩
    have hpt : peakTimeBucket rows X = .ok (fmtHM g.1) := by
      unfold peakTimeBucket
      rw [if_neg hrel, hgt]
    have hsorted := List.sorted_insertionSort bucketGroupLE (peakGroups rows X)
    rw [hgt] at hsorted
    have hperm := List.perm_insertionSort bucketGroupLE (peakGroups rows X)
    rw [hgt] at hperm
    have hg_mem : g ∈ peakGroups rows X := hperm.mem_iff.mp (List.mem_cons_self g t)
    obtain ⟨b0, hb0_mem, hb0_eq⟩ := List.mem_map.mp hg_mem
    have hg1 : g.1 = b0 := by rw [← hb0_eq]
    have hg2 : g.2 = bucketSum rows X g.1 := by rw [← hb0_eq]
    have hbuckets_mem : ∀ bb : Nat, bb ∈ peakBuckets rows X ↔
        bb ∈ (relevantBucketPairs rows X).map Prod.fst := by
      intro bb
      unfold peakBuckets
      rw [(List.perm_insertionSort _ _).mem_iff, List.mem_dedup]
    refine ⟨fun h => absurd h hrel, fun _ => ⟨g.1, hpt, ?_, ?_⟩,
      fun str hstr => ?_⟩
    · exact (hbuckets_mem g.1).mp (hg1 ▸ hb0_mem)
    · intro bb hbb
      have hbb_buckets : bb ∈ peakBuckets rows X := (hbuckets_mem bb).mpr hbb
      have hbb_groups : (bb, bucketSum rows X bb) ∈ peakGroups rows X :=
        List.mem_map.mpr ⟨bb, hbb_buckets, rfl⟩
      have hbb_sorted : (bb, bucketSum rows X bb) ∈ g :: t :=
        hperm.mem_iff.mpr hbb_groups
      rcases List.mem_cons.mp hbb_sorted with heq | hmem_t
      · right
        have hbbg : g.1 = bb := by rw [← heq]
        constructor
        · rw [hbbg]
        · rw [hbbg]
      · have hle := List.rel_of_pairwise_cons hsorted hmem_t
        unfold bucketGroupLE at hle
        rcases hle with hlt | ⟨heq2, hle1⟩
        · left
          rw [← hg2]
          exact hlt
        · right
          refine ⟨?_, hle1⟩
          rw [← hg2]
          exact heq2.symm
    · rw [hpt] at hstr
      simp only [Except.ok.injEq] at hstr
      subst hstr
      constructor
      · intro h0; exact absurd h0 (fmtHM_ne_empty g.1)
      · intro h0; exact absurd h0 hrel

theorem peak_time_bucket_spec_witness :
    0 < 1 ∧ peakTimeBucket c6Rows 1 = Except.ok "" :=
  ⟨by decide,
   (peak_time_bucket_spec c6Rows 1 (by decide) (by decide)).1 (by decide)⟩

theorem dirQualifies_iff (d : SubDir) :
    dirQualifies d = true ↔ StoreDirCondition d := by
  unfold dirQualifies StoreDirCondition
  simp [List.any_eq_true, List.isEmpty_iff, Bool.not_eq_true']

/-- C7: root store discovery follows the fixed three-way order — qualifying
non-hidden subdirectories (holding an image file or entirely empty) become
the stores with no fallback; otherwise the root itself becomes a single
fallback store when it directly holds an image file; otherwise there are no
stores — and the global summary is the per-store summaries sorted by
`store_id` ascending. -/
theorem root_discovery_spec (root : RootDir) (conf_threshold : ℚ)
    (detector_type : String)
    (yolo_init : Except String (String → Except String (List ℚ)))
    (time_bucket_minutes reference_day : Nat) :
    ((∃ d ∈ root.subdirs, StoreDirCondition d) →
      (listStoreDirs root).2 = false ∧
      ∀ d, d ∈ (listStoreDirs root).1 ↔ (d ∈ root.subdirs ∧ StoreDirCondition d)) ∧
    ((¬ ∃ d ∈ root.subdirs, StoreDirCondition d) →
      ((∃ f ∈ root.rootFiles, isImageName f.name = true) →
        listStoreDirs root =
          ([{ name := root.name, files := root.rootFiles,
              hasSubdirs := !root.subdirs.isEmpty }], true)) ∧
      ((¬ ∃ f ∈ root.rootFiles, isImageName f.name = true) →
        listStoreDirs root = ([], false))) ∧
    (∀ out, analyzeRoot root conf_threshold detector_type yolo_init
        time_bucket_minutes reference_day = .ok out →
      out.all_stores_summary.Pairwise (fun a b => a.store_id ≤ b.store_id) ∧
      out.all_stores_summary.Perm (out.stores.map (fun p => p.2.summary_row))) := by
  have hsubperm := List.perm_insertionSort
    (fun a b : SubDir => strLEb a.name b.name = true) root.subdirs
  refine ⟨fun hex => ?_, fun hno => ?_, fun out hout => ?_⟩
  · obtain ⟨d0, hd0, hq0⟩ := hex
    have hmem : d0 ∈ (List.insertionSort
        (fun a b : SubDir => strLEb a.name b.name = true)
        root.subdirs).filter dirQualifies :=
      List.mem_filter.mpr ⟨hsubperm.mem_iff.mpr hd0, (dirQualifies_iff d0).mpr hq0⟩
    have hne : (List.insertionSort
        (fun a b : SubDir => strLEb a.name b.name = true)
        root.subdirs).filter dirQualifies ≠ [] :=
      List.ne_nil_of_mem hmem
    constructor
    · unfold listStoreDirs
      rw [if_pos hne]
    · intro d
      unfold listStoreDirs
      rw [if_pos hne]
      rw [List.mem_filter, hsubperm.mem_iff, dirQualifies_iff]
  · have hfilter : (List.insertionSort
        (fun a b : SubDir => strLEb a.name b.name = true)
        root.subdirs).filter dirQualifies = [] := by
      rw [List.filter_eq_nil_iff]
      intro d hd hq
      exact hno ⟨d, hsubperm.mem_iff.mp hd, (dirQualifies_iff d).mp hq⟩
    constructor
    · intro ⟨f, hf, hif⟩
      unfold listStoreDirs
      rw [if_neg (by simp [hfilter]), if_pos (List.any_eq_true.mpr ⟨f, hf, hif⟩)]
    · intro hnoimg
      unfold listStoreDirs
      rw [if_neg (by simp [hfilter]),
        if_neg (by simp only [List.any_eq_true]; exact hnoimg)]
  · simp only [analyzeRoot] at hout
    cases hm : mapExcept (fun d =>
        (analyzeStoreResult d.name d.name
          ((buildDetector detector_type conf_threshold yolo_init).1.detectPath)
          reference_day time_bucket_minutes d.files).map
          (fun r => (d.name, r))) (listStoreDirs root).1 with
    | error e => rw [hm] at hout; exact absurd hout (by simp)
    | ok results =>
      rw [hm] at hout
      simp only [Except.ok.injEq] at hout
      subst hout
      constructor
      · have hs := List.sorted_insertionSort
          (fun a b : SummaryRow => strLEb a.store_id b.store_id = true)
          (results.map (fun p => p.2.summary_row))
        exact hs.imp (fun h => (strLEb_iff _ _).mp h)
      · exact List.perm_insertionSort _ _

theorem root_discovery_spec_witness :
    (listStoreDirs c7Root).2 = false ∧
    c7Empty ∈ (listStoreDirs c7Root).1 ∧
    analyzeRoot c7Root 0 "x" (Except.error "e") 1 0 = .ok c7Out ∧
    c7Out.all_stores_summary.Pairwise (fun a b => a.store_id ≤ b.store_id) ∧
    c7Out.all_stores_summary.Perm (c7Out.stores.map (fun p => p.2.summary_row)) := by
  have h := root_discovery_spec c7Root 0 "x" (Except.error "e") 1 0
  have hex : ∃ d ∈ c7Root.subdirs, StoreDirCondition d :=
    ⟨c7Empty, by decide, (dirQualifies_iff c7Empty).mp (by decide)⟩
  have hout : analyzeRoot c7Root 0 "x" (Except.error "e") 1 0 = .ok c7Out := by
    decide
  exact ⟨(h.1 hex).1,
    ((h.1 hex).2 c7Empty).mpr
      ⟨by decide, (dirQualifies_iff c7Empty).mp (by decide)⟩,
    hout, (h.2.2 c7Out hout).1, (h.2.2 c7Out hout).2⟩

/-- C9 counterexample: with the mock detector, `"09-57-44_D03-1.jpg"` has
character-code sum 1130 ≡ 2 (mod 4), exactly like `"09-57-27_D02-1.jpg"`, so
the second row comes out `relevant = true` with `person_count = 2` — not
`relevant = false` with 0 people as the claimed scenario asserts. -/
theorem mock_scenario_counterexample :
    (analyzeStore "store_a" "store_a" ((Detector.mock (1/4)).detectPath) 0
        c9Files).map
      (fun rows => rows.map (fun r => (r.filename, r.relevant, r.person_count))) =
    .ok [("09-57-27_D02-1.jpg", true, 2), ("09-57-44_D03-1.jpg", true, 2)] := by
  decide

/-- C9 amended: in the two-file mock scenario both files have character-code
sum 1130, so both rows are `relevant = true` with `person_count = 2`
(and detection confidence 0.75); the hotspot set holds D02 at rank 1 and D03
at rank 2, both with one relevant image, two people, and
`avg_people_per_relevant_image = 2.0`, the tie broken by `camera_id`. -/
theorem mock_scenario_spec :
    analyzeStore "store_a" "store_a" ((Detector.mock (1/4)).detectPath) 0
        c9Files = .ok [c9Row1, c9Row2] ∧
    c9Row1.relevant = true ∧ c9Row1.person_count = 2 ∧
    c9Row2.relevant = true ∧ c9Row2.person_count = 2 ∧
    c9Conf = 3/4 ∧
    buildCameraHotspots [c9Row1, c9Row2] "store_a" =
      [{ store_id := "store_a", camera_id := "D02", relevant_images := 1,
         total_people := 2, avg_people_per_relevant_image := 2,
         hotspot_rank := 1 },
       { store_id := "store_a", camera_id := "D03", relevant_images := 1,
         total_people := 2, avg_people_per_relevant_image := 2,
         hotspot_rank := 2 }] :=
  ⟨rfl, rfl, rfl, rfl, rfl, by with_unfolding_all decide,
   by with_unfolding_all decide⟩

theorem stampRanks_map_camera (l : List HotspotRow) :
    (stampRanks l).map HotspotRow.camera_id = l.map HotspotRow.camera_id := by
  unfold stampRanks
  rw [List.map_map]
  rw [show (HotspotRow.camera_id ∘ fun p : Nat × HotspotRow =>
      { p.2 with hotspot_rank := p.1 + 1 }) =
    (HotspotRow.camera_id ∘ Prod.snd) from rfl]
  rw [← List.map_map, List.enum_map_snd]

theorem stampRanks_mem {l : List HotspotRow} {h : HotspotRow}
    (hm : h ∈ stampRanks l) :
    ∃ h0 ∈ l, h.store_id = h0.store_id ∧ h.camera_id = h0.camera_id ∧
      h.relevant_images = h0.relevant_images ∧
      h.total_people = h0.total_people ∧
      h.avg_people_per_relevant_image = h0.avg_people_per_relevant_image := by
  unfold stampRanks at hm
  obtain ⟨p, hp, rfl⟩ := List.mem_map.mp hm
  have hsnd : p.2 ∈ l := by
    have h2 : p.2 ∈ l.enum.map Prod.snd := List.mem_map_of_mem Prod.snd hp
    rwa [List.enum_map_snd] at h2
  exact ⟨p.2, hsnd, rfl, rfl, rfl, rfl, rfl⟩

theorem stampRanks_rank (l : List HotspotRow) (i : Nat)
    (hi : i < (stampRanks l).length) :
    ((stampRanks l).get ⟨i, hi⟩).hotspot_rank = i + 1 := by
  simp [stampRanks, List.get_eq_getElem, List.getElem_map, List.getElem_enum]

theorem stampRanks_pairwise {l : List HotspotRow}
    (hp : l.Pairwise hotspotKeyLT) : (stampRanks l).Pairwise hotspotKeyLT := by
  unfold stampRanks
  rw [List.pairwise_map]
  have h2 : l.enum.Pairwise
      (fun p q : Nat × HotspotRow => hotspotKeyLT p.2 q.2) :=
    (List.pairwise_map).mp (by rw [List.enum_map_snd]; exact hp)
  exact h2.imp (fun hpq => hpq)

theorem hotspotKeyLT_of_le_ne {a b : HotspotRow} (hle : hotspotLE a b)
    (hne : a.camera_id ≠ b.camera_id) : hotspotKeyLT a b := by
  unfold hotspotLE at hle
  unfold hotspotKeyLT
  rcases hle with h | ⟨he, h2⟩
  · exact Or.inl h
  · rcases h2 with h2 | ⟨ht, hc⟩
    · exact Or.inr ⟨he, Or.inl h2⟩
    · exact Or.inr ⟨he, Or.inr ⟨ht, lt_of_le_of_ne hc hne⟩⟩

theorem mem_observedCameras {rows : List Row} {c : String} :
    c ∈ observedCameras rows ↔
      (∃ r ∈ rows, r.camera_id = c) ∧ strTrim c ≠ "" := by
  unfold observedCameras
  rw [List.mem_filter]
  simp [List.mem_map]

/-- C2: `build_camera_hotspots` produces exactly one row per distinct
non-blank observed camera id; a camera with relevant rows carries their
count, their people sum and `round(total/count, 3)` as average, a camera
without relevant rows carries zeros; the rows are ordered by average
descending, then total descending, then camera id ascending, and
`hotspot_rank` is the dense sequence 1..K in that order. -/
theorem camera_hotspots_spec (rows : List Row) (sid : String)
    (hne : ∃ r ∈ rows, strTrim r.camera_id ≠ "")
    (hrel : ∀ r ∈ rows, r.relevant = true → strTrim r.camera_id ≠ "") :
    ((buildCameraHotspots rows sid).map HotspotRow.camera_id).Perm
      (observedCameras rows).dedup ∧
    (∀ h ∈ buildCameraHotspots rows sid,
      h.store_id = sid ∧
      h.relevant_images = (relevantFor rows h.camera_id).length ∧
      h.total_people = ((relevantFor rows h.camera_id).map Row.person_count).sum ∧
      h.avg_people_per_relevant_image =
        (if 0 < (relevantFor rows h.camera_id).length then
          round3 ((((relevantFor rows h.camera_id).map Row.person_count).sum : ℚ) /
            ((relevantFor rows h.camera_id).length : ℚ))
        else 0)) ∧
    (buildCameraHotspots rows sid).Pairwise hotspotKeyLT ∧
    (∀ i (hi : i < (buildCameraHotspots rows sid).length),
      ((buildCameraHotspots rows sid).get ⟨i, hi⟩).hotspot_rank = i + 1) := by
  have hCne : ¬(observedCameras rows = []) := by
    obtain ⟨r, hr, hrne⟩ := hne
    exact List.ne_nil_of_mem (mem_observedCameras.mpr ⟨⟨r, hr, rfl⟩, hrne⟩)
  by_cases hRel : rows.filter Row.relevant = []
  · have hH : buildCameraHotspots rows sid =
        stampRanks ((sortedStrings (observedCameras rows)).map (zeroHotspotRow sid)) := by
      simp only [buildCameraHotspots]
      rw [if_neg hCne, if_pos hRel]
    have hrfEmpty : ∀ c, relevantFor rows c = [] := by
      intro c
      unfold relevantFor
      rw [hRel, List.filter_nil]
    rw [hH]
    refine ⟨?_, ?_, ?_, ?_⟩
    · rw [stampRanks_map_camera, List.map_map]
      rw [show (HotspotRow.camera_id ∘ zeroHotspotRow sid) = id from rfl, List.map_id]
      exact List.perm_insertionSort _ _
    · intro h hm
      obtain ⟨h0, h0m, he1, he2, he3, he4, he5⟩ := stampRanks_mem hm
      obtain ⟨c, hcm, rfl⟩ := List.mem_map.mp h0m
      have hcam : h.camera_id = c := he2
      refine ⟨by rw [he1]; rfl, ?_, ?_, ?_⟩
      · rw [he3, hcam, hrfEmpty c]; rfl
      · rw [he4, hcam, hrfEmpty c]; rfl
      · rw [he5, hcam, hrfEmpty c]; rfl
    · apply stampRanks_pairwise
      rw [List.pairwise_map]
      exact (sortedStrings_pairwise_lt _).imp (fun hlt =>
        Or.inr ⟨rfl, Or.inr ⟨rfl, hlt⟩⟩)
    · intro i hi
      exact stampRanks_rank _ i hi
  · have hH : buildCameraHotspots rows sid =
        stampRanks (List.insertionSort hotspotLE
          ((sortedStrings ((rows.filter Row.relevant).map Row.camera_id)).map
              (groupedHotspotRow sid (rows.filter Row.relevant)) ++
            ((sortedStrings (observedCameras rows)).filter (fun c =>
                !(sortedStrings ((rows.filter Row.relevant).map Row.camera_id)).contains c)).map
              (zeroHotspotRow sid))) := by
      simp only [buildCameraHotspots]
      rw [if_neg hCne, if_neg hRel]
    rw [hH]
    set R := rows.filter Row.relevant with hR
    set keys := sortedStrings (R.map Row.camera_id) with hkeys
    set allC := sortedStrings (observedCameras rows) with hallC
    set grouped := keys.map (groupedHotspotRow sid R) with hgrouped
    set extra := (allC.filter (fun c => !keys.contains c)).map (zeroHotspotRow sid)
      with hextra
    set base := List.insertionSort hotspotLE (grouped ++ extra) with hbase
    have hkeysSub : ∀ c ∈ keys, c ∈ allC := by
      intro c hc
      rw [hkeys, mem_sortedStrings] at hc
      obtain ⟨r, hrR, hrc⟩ := List.mem_map.mp hc
      rw [hR, List.mem_filter] at hrR
      rw [hallC, mem_sortedStrings]
      exact mem_observedCameras.mpr ⟨⟨r, hrR.1, hrc⟩, hrc ▸ hrel r hrR.1 hrR.2⟩
    have hmapbase : (base.map HotspotRow.camera_id).Perm
        (keys ++ allC.filter (fun c => !keys.contains c)) := by
      have hp := (List.perm_insertionSort hotspotLE (grouped ++ extra)).map
        HotspotRow.camera_id
      rw [← hbase] at hp
      rw [List.map_append, hgrouped, hextra, List.map_map, List.map_map] at hp
      rw [show (HotspotRow.camera_id ∘ groupedHotspotRow sid R) = id from rfl] at hp
      rw [show (HotspotRow.camera_id ∘ zeroHotspotRow sid) = id from rfl] at hp
      rw [List.map_id, List.map_id] at hp
      exact hp
    have hnodupKF : (keys ++ allC.filter (fun c => !keys.contains c)).Nodup := by
      apply List.Nodup.append
      · rw [hkeys]; exact sortedStrings_nodup _
      · exact (hallC ▸ sortedStrings_nodup (observedCameras rows)).filter _
      · intro a ha hafilter
        rw [List.mem_filter] at hafilter
        have hnot : a ∉ keys := by simpa using hafilter.2
        exact hnot ha
    have hpermKF : (keys ++ allC.filter (fun c => !keys.contains c)).Perm
        (observedCameras rows).dedup := by
      rw [List.perm_ext_iff_of_nodup hnodupKF (List.nodup_dedup _)]
      intro a
      rw [List.mem_append, List.mem_filter, List.mem_dedup]
      constructor
      · rintro (ha | ⟨ha, _⟩)
        · have h2 := hkeysSub a ha
          rw [hallC, mem_sortedStrings] at h2
          exact h2
        · rw [hallC, mem_sortedStrings] at ha
          exact ha
      · intro ha
        by_cases hk : a ∈ keys
        · exact Or.inl hk
        · refine Or.inr ⟨?_, by simpa using hk⟩
          rw [hallC, mem_sortedStrings]
          exact ha
    refine ⟨?_, ?_, ?_, ?_⟩
    · rw [stampRanks_map_camera]
      exact hmapbase.trans hpermKF
    · intro h hm
      obtain ⟨h0, h0m, he1, he2, he3, he4, he5⟩ := stampRanks_mem hm
      have h0m2 : h0 ∈ grouped ++ extra := by
        have hp := List.perm_insertionSort hotspotLE (grouped ++ extra)
        rw [← hbase] at hp
        exact hp.mem_iff.mp h0m
      rcases List.mem_append.mp h0m2 with hg | hx
      · rw [hgrouped] at hg
        obtain ⟨c, hck, rfl⟩ := List.mem_map.mp hg
        have hcam : h.camera_id = c := he2
        have hrf : relevantFor rows h.camera_id = R.filter (fun r => r.camera_id = c) := by
          rw [hcam]
          unfold relevantFor
          rw [← hR]
        have hlen : 0 < (R.filter (fun r => r.camera_id = c)).length := by
          rw [hkeys, mem_sortedStrings] at hck
          obtain ⟨r, hrR, hrc⟩ := List.mem_map.mp hck
          exact List.length_pos_of_mem (List.mem_filter.mpr ⟨hrR, by simp [hrc]⟩)
        refine ⟨by rw [he1]; rfl, ?_, ?_, ?_⟩
        · rw [he3, hrf]; rfl
        · rw [he4, hrf]; rfl
        · rw [he5, hrf, if_pos hlen]; rfl
      · rw [hextra] at hx
        obtain ⟨c, hcf, rfl⟩ := List.mem_map.mp hx
        rw [List.mem_filter] at hcf
        have hnot : c ∉ keys := by simpa using hcf.2
        have hrfnil : relevantFor rows c = [] := by
          unfold relevantFor
          rw [← hR, List.filter_eq_nil_iff]
          intro r hrR hrc
          apply hnot
          rw [hkeys, mem_sortedStrings]
          exact List.mem_map.mpr ⟨r, hrR, by simpa using hrc⟩
        have hcam : h.camera_id = c := he2
        refine ⟨by rw [he1]; rfl, ?_, ?_, ?_⟩
        · rw [he3, hcam, hrfnil]; rfl
        · rw [he4, hcam, hrfnil]; rfl
        · rw [he5, hcam, hrfnil]; rfl
    · apply stampRanks_pairwise
      have hsorted : base.Pairwise hotspotLE := by
        rw [hbase]
        exact List.sorted_insertionSort hotspotLE _
      have hnodupBase : (base.map HotspotRow.camera_id).Nodup :=
        (hmapbase.symm.nodup hnodupKF)
      have hne2 : base.Pairwise (fun a b => a.camera_id ≠ b.camera_id) :=
        (List.pairwise_map).mp hnodupBase
      exact (hsorted.and hne2).imp (fun hab => hotspotKeyLT_of_le_ne hab.1 hab.2)
    · intro i hi
      exact stampRanks_rank _ i hi

theorem camera_hotspots_spec_witness :
    (∃ r ∈ c2Rows, strTrim r.camera_id ≠ "") ∧
    (∀ r ∈ c2Rows, r.relevant = true → strTrim r.camera_id ≠ "") ∧
    (((buildCameraHotspots c2Rows "s").map HotspotRow.camera_id).Perm
        (observedCameras c2Rows).dedup ∧
      (∀ h ∈ buildCameraHotspots c2Rows "s",
        h.store_id = "s" ∧
        h.relevant_images = (relevantFor c2Rows h.camera_id).length ∧
        h.total_people = ((relevantFor c2Rows h.camera_id).map Row.person_count).sum ∧
        h.avg_people_per_relevant_image =
          (if 0 < (relevantFor c2Rows h.camera_id).length then
            round3 ((((relevantFor c2Rows h.camera_id).map Row.person_count).sum : ℚ) /
              ((relevantFor c2Rows h.camera_id).length : ℚ))
          else 0)) ∧
      (buildCameraHotspots c2Rows "s").Pairwise hotspotKeyLT ∧
      (∀ i (hi : i < (buildCameraHotspots c2Rows "s").length),
        ((buildCameraHotspots c2Rows "s").get ⟨i, hi⟩).hotspot_rank = i + 1)) :=
  ⟨by decide, by decide, camera_hotspots_spec c2Rows "s" (by decide) (by decide)⟩
